import Mathlib

/-!
Shallow embedding of the delivy-server in-memory stores and route handlers
(src/server.ts), together with theorems settling the specification's claims.
Times and money are modelled as `Int` milliseconds / exact amounts; the JS
`Map` objects are modelled as association lists with unique keys.
-/

namespace Delivy

/-- 3 hours in milliseconds (server.ts line 15). -/
def THREE_HOURS : Int := 3 * 60 * 60 * 1000

/-- 24 hours in milliseconds (server.ts line 17). -/
def TWENTY_FOUR_HOURS : Int := 24 * 60 * 60 * 1000

/-- A JS `Map<string, α>` modelled as an association list. -/
abbrev Store (α : Type) := List (String × α)

/-- `Map.get`: first binding of the key. -/
def Store.get {α : Type} : Store α → String → Option α
  | [], _ => none
  | (k', v) :: rest, k => if k' = k then some v else Store.get rest k

/-- `Map.set`: replaces the binding of the key, or appends a new one. -/
def Store.set {α : Type} : Store α → String → α → Store α
  | [], k, v => [(k, v)]
  | (k', v') :: rest, k, v =>
      if k' = k then (k, v) :: rest else (k', v') :: Store.set rest k v

/-- `Map.delete`: removes the key's binding (keys are unique in a JS `Map`,
so dropping every binding of the key is the same operation). -/
def Store.erase {α : Type} (s : Store α) (k : String) : Store α :=
  s.filter (fun p => !(p.1 == k))

theorem Store.get_set_self {α : Type} (s : Store α) (k : String) (v : α) :
    Store.get (Store.set s k v) k = some v := by
  induction s with
  | nil => simp [Store.set, Store.get]
  | cons hd tl ih =>
      obtain ⟨k', v'⟩ := hd
      by_cases h : k' = k
      · simp [Store.set, Store.get, h]
      · simp [Store.set, Store.get, h, ih]

theorem Store.get_erase_self {α : Type} (s : Store α) (k : String) :
    Store.get (Store.erase s k) k = none := by
  induction s with
  | nil => rfl
  | cons hd tl ih =>
      obtain ⟨k', v'⟩ := hd
      by_cases h : k' = k
      · simpa [Store.erase, h] using ih
      · simpa [Store.erase, Store.get, h] using ih

/-! ## Data model (server.ts lines 64-143) -/

/-- `OrderStatus` (server.ts lines 97-105). -/
inductive OrderStatus where
  | PENDING | ACCEPTED | PREPARING | READY
  | PICKED_UP | ON_WAY | DELIVERED | CANCELLED
deriving DecidableEq, Repr

/-- `OrderItem` (server.ts lines 89-95). Prices and quantities are exact. -/
structure OrderItem where
  id : String
  menuItemId : String
  name : String
  quantity : Int
  price : Int
deriving DecidableEq, Repr

/-- `Order` (server.ts lines 107-120). Optional fields are `Option`. -/
structure Order where
  id : String
  userId : String
  customerName : String
  restaurantId : String
  restaurantName : String
  status : OrderStatus
  totalAmount : Int
  orderItems : List OrderItem
  deliveryAddress : String
  courierId : Option String
  courierName : Option String
  createdAt : Int
deriving DecidableEq, Repr

/-- `Message` (server.ts lines 122-131); `chatType` discriminator inlined. -/
inductive ChatType where
  | RESTAURANT_CHAT | COURIER_CHAT
deriving DecidableEq, Repr

structure Message where
  id : String
  orderId : String
  content : String
  senderId : String
  isFromUser : Bool
  timestamp : Int
  chatType : ChatType
  delivered : Bool
deriving DecidableEq, Repr

/-- `Restaurant` (server.ts lines 70-76). -/
structure Restaurant where
  id : String
  name : String
  coverImage : Option String
  isActive : Bool
  updatedAt : Int
deriving DecidableEq, Repr

/-- `MenuItem` (server.ts lines 78-87). -/
structure MenuItem where
  id : String
  name : String
  description : String
  price : Int
  category : String
  imageUri : Option String
  isAvailable : Bool
  updatedAt : Int
deriving DecidableEq, Repr

/-- A `tempMenus` entry (server.ts line 147): items plus their set-time. -/
structure MenuEntry where
  items : List MenuItem
  timestamp : Int
deriving DecidableEq, Repr

/-! ## Order endpoints -/

/-- JS truthiness of an optional string request field:
`undefined`/missing and the empty string are falsy. -/
def truthyStr : Option String → Bool
  | none => false
  | some s => s ≠ ""

/-- The per-order mutation of `PUT /orders/:orderId/status`
(server.ts lines 450-454): spread of the old order with `status` overwritten
and `courierId: courierId || old.courierId`. -/
def applyStatusUpdate (status : OrderStatus) (reqCourier : Option String)
    (o : Order) : Order :=
  { o with
    status := status
    courierId := if truthyStr reqCourier then reqCourier else o.courierId }

/-- `findIndex` + in-place assignment at that index: replace the first
element satisfying `p` by its image under `f`; leave the list unchanged
when no element matches. -/
def updateFirst {α : Type} (p : α → Bool) (f : α → α) : List α → List α
  | [] => []
  | a :: rest => if p a then f a :: rest else a :: updateFirst p f rest

/-- `PUT /orders/:orderId/status` (server.ts lines 437-487): for every owner
bucket, the first order with the given id is overwritten via
`applyStatusUpdate`; the boolean is `found` (false answers 404 Not Found). -/
def updateStatus (st : Store (List Order)) (orderId : String)
    (status : OrderStatus) (reqCourier : Option String) :
    Store (List Order) × Bool :=
  let st' := st.map (fun kb =>
    (kb.1, updateFirst (fun o => o.id == orderId)
      (applyStatusUpdate status reqCourier) kb.2))
  let found := st.any (fun kb => kb.2.any (fun o => o.id == orderId))
  (st', found)

/-- `POST /orders/:userId` (server.ts lines 405-435): `none` models a body
whose `orders` field is not an array (rejected with 400, store untouched);
otherwise the batch is appended to the user's bucket unconditionally. -/
def createOrders (st : Store (List Order)) (userId : String)
    (body : Option (List Order)) : Store (List Order) × Bool :=
  match body with
  | none => (st, false)
  | some newOrders =>
      let existingOrders := (Store.get st userId).getD []
      (Store.set st userId (existingOrders ++ newOrders), true)

/-- The retention test of the order sweep (server.ts lines 603-607), with
JS precedence: `(status !== DELIVERED && status !== CANCELLED) || age <= 24h`. -/
def keepOrder (now : Int) (o : Order) : Bool :=
  (!(o.status == .DELIVERED) && !(o.status == .CANCELLED))
    || decide (now - o.createdAt ≤ TWENTY_FOUR_HOURS)

/-- The order sweep of the 15-minute cleanup (server.ts lines 600-615):
each bucket is filtered by `keepOrder`; a bucket left empty is deleted. -/
def sweepOrders (st : Store (List Order)) (now : Int) : Store (List Order) :=
  match st with
  | [] => []
  | (k, b) :: rest =>
      let activeOrders := b.filter (keepOrder now)
      if activeOrders.isEmpty then sweepOrders rest now
      else (k, activeOrders) :: sweepOrders rest now

/-! ## Menu endpoints -/

/-- `POST /menus/:restaurantId` (server.ts lines 300-328): `none` models a
body whose `items` field is not an array (rejected with 400); otherwise every
item gets `updatedAt` overwritten with the current time and the restaurant's
entry is replaced with the fresh snapshot, stamped `timestamp := now`. -/
def setMenu (menus : Store MenuEntry) (restaurantId : String)
    (body : Option (List MenuItem)) (now : Int) : Store MenuEntry × Bool :=
  match body with
  | none => (menus, false)
  | some items =>
      let itemsWithTimestamp := items.map (fun item => { item with updatedAt := now })
      (Store.set menus restaurantId
        { items := itemsWithTimestamp, timestamp := now }, true)

/-- `GET /menus/:restaurantId` (server.ts lines 330-348): when the entry is
absent or older than 24 hours, the key is deleted and 404 is answered
(`none`); otherwise the stored items are returned and the store is
untouched. -/
def getMenu (menus : Store MenuEntry) (restaurantId : String) (now : Int) :
    Store MenuEntry × Option (List MenuItem) :=
  match Store.get menus restaurantId with
  | none => (Store.erase menus restaurantId, none)
  | some menuData =>
      if now - menuData.timestamp > TWENTY_FOUR_HOURS then
        (Store.erase menus restaurantId, none)
      else
        (menus, some menuData.items)

/-! ## Message endpoints -/

/-- `POST /messages/:orderId` (server.ts lines 491-540): rejects when
`content` or `senderId` is falsy (the `chatType` presence check always passes
here because the field is an enum); otherwise appends a fresh message with
`timestamp := now` and `delivered := false` to the order's list. -/
def postMessage (st : Store (List Message)) (orderId : String)
    (content senderId : String) (isFromUser : Bool) (chatType : ChatType)
    (msgId : String) (now : Int) : Store (List Message) × Option Message :=
  if content = "" ∨ senderId = "" then (st, none)
  else
    let message : Message :=
      { id := msgId, orderId := orderId, content := content
        senderId := senderId, isFromUser := isFromUser
        timestamp := now, chatType := chatType, delivered := false }
    let orderMessages := (Store.get st orderId).getD []
    (Store.set st orderId (orderMessages ++ [message]), some message)

/-- `GET /messages/:orderId` (server.ts lines 542-568): the order's messages
are filtered by the optional chat-type query, then by age ≤ 3 hours; when the
surviving list is shorter than the order's full list, the survivors are
written back over the order's stored list. Returns the new store and the
response body. -/
def listMessages (st : Store (List Message)) (orderId : String)
    (chatFilter : Option ChatType) (now : Int) :
    Store (List Message) × List Message :=
  let orderMessages := (Store.get st orderId).getD []
  let filteredMessages : List Message :=
    match chatFilter with
    | some t => orderMessages.filter (fun msg => msg.chatType == t)
    | none => orderMessages
  let recentMessages :=
    filteredMessages.filter (fun msg => decide (now - msg.timestamp ≤ THREE_HOURS))
  let st' :=
    if recentMessages.length ≠ orderMessages.length
    then Store.set st orderId recentMessages
    else st
  (st', recentMessages)

/-! ## Restaurant endpoint -/

/-- `POST /restaurants` (server.ts lines 240-297), on the upsert path (the
body carries `id` and `name`, so the image-only early return at line 245 is
not taken): rejects when `id` or `name` is falsy; otherwise builds a fresh
record whose `coverImage` is the uploaded file when present and the existing
record's `coverImage` otherwise, with `isActive` the string comparison
`isActive === 'true'` and `updatedAt := now`; the record replaces the first
existing entry with that id, or is pushed at the end. -/
def upsertRestaurant (restaurants : List Restaurant) (id name : String)
    (isActiveStr : String) (file : Option String) (now : Int) :
    List Restaurant × Bool :=
  if id = "" ∨ name = "" then (restaurants, false)
  else
    let existing := restaurants.find? (fun r => r.id == id)
    let existingCoverImage := existing.bind (fun r => r.coverImage)
    let restaurant : Restaurant :=
      { id := id, name := name
        coverImage := match file with
          | some f => some f
          | none => existingCoverImage
        isActive := isActiveStr == "true"
        updatedAt := now }
    match existing with
    | some _ =>
        (updateFirst (fun r => r.id == id) (fun _ => restaurant) restaurants, true)
    | none => (restaurants ++ [restaurant], true)

/-! ## Helper lemmas -/

theorem Store.get_map {α β : Type} (f : α → β) (st : Store α) (k : String) :
    Store.get (st.map (fun kb => (kb.1, f kb.2))) k = (Store.get st k).map f := by
  induction st with
  | nil => rfl
  | cons hd tl ih =>
      obtain ⟨k', v⟩ := hd
      by_cases h : k' = k
      · simp [Store.get, h]
      · simpa [Store.get, h] using ih

theorem updateFirst_length {α : Type} (p : α → Bool) (f : α → α) (l : List α) :
    (updateFirst p f l).length = l.length := by
  induction l with
  | nil => rfl
  | cons a rest ih =>
      by_cases h : p a = true
      · simp [updateFirst, h]
      · simp [updateFirst, h, ih]

theorem updateFirst_get?_of_not {α : Type} (p : α → Bool) (f : α → α)
    (l : List α) (i : ℕ) (o : α) (ho : l.get? i = some o)
    (h : p o = false) :
    (updateFirst p f l).get? i = some o := by
  induction l generalizing i with
  | nil => simp at ho
  | cons a rest ih =>
      by_cases hp : p a = true
      · cases i with
        | zero =>
            simp at ho
            rw [ho] at hp
            rw [hp] at h
            cases h
        | succ j => simp_all [updateFirst, hp]
      · cases i with
        | zero => simp_all [updateFirst, hp]
        | succ j => simp_all [updateFirst, hp]

theorem updateFirst_get?_pres {α β : Type} (p : α → Bool) (f : α → α)
    (g : α → β) (hf : ∀ a, g (f a) = g a) (l : List α) (i : ℕ) :
    ((updateFirst p f l).get? i).map g = (l.get? i).map g := by
  induction l generalizing i with
  | nil => rfl
  | cons a rest ih =>
      by_cases hp : p a = true
      · cases i with
        | zero => simp [updateFirst, hp, hf]
        | succ j => simp [updateFirst, hp]
      · cases i with
        | zero => simp [updateFirst, hp]
        | succ j => simpa [updateFirst, hp] using ih j

theorem updateFirst_append {α : Type} (p : α → Bool) (f : α → α)
    (pre post : List α) (a : α)
    (hpre : ∀ x ∈ pre, p x = false) (ha : p a = true) :
    updateFirst p f (pre ++ a :: post) = pre ++ f a :: post := by
  induction pre with
  | nil => simp [updateFirst, ha]
  | cons x xs ih =>
      have hx : p x = false := hpre x (by simp)
      have hxs : ∀ y ∈ xs, p y = false := fun y hy => hpre y (by simp [hy])
      simp [updateFirst, hx, ih hxs]

/-! ## Sample records used in concrete instances -/

/-- A delivered order, used as concrete input. -/
def sampleDelivered : Order :=
  { id := "o1", userId := "u1", customerName := "Ada", restaurantId := "r1"
    restaurantName := "Pizza", status := .DELIVERED, totalAmount := 10
    orderItems := [], deliveryAddress := "addr", courierId := none
    courierName := none, createdAt := 0 }

/-- An order whose declared total (100) differs from the item sum (5). -/
def badTotalOrder : Order :=
  { id := "o2", userId := "u1", customerName := "Bob", restaurantId := "r1"
    restaurantName := "Pizza", status := .PENDING, totalAmount := 100
    orderItems := [{ id := "i1", menuItemId := "m1", name := "x"
                     quantity := 1, price := 5 }]
    deliveryAddress := "addr", courierId := none, courierName := none
    createdAt := 0 }

/-- Modelled from the spec: the consistency condition `createOrders` is
claimed to validate — the declared `totalAmount` equals the sum over
`orderItems` of price times quantity. (The source performs no such check;
this definition only states the claim.) -/
def specTotalConsistent (o : Order) : Bool :=
  o.totalAmount == (o.orderItems.map (fun it => it.price * it.quantity)).sum

/-! ## Claim C1 -/

/-- C1 counterexample: a DELIVERED order is neither rejected nor left
unchanged by a later `updateStatus`; its status becomes PENDING, so status
does change after reaching a terminal state. -/
theorem c1_counterexample :
    sampleDelivered.status = OrderStatus.DELIVERED ∧
    (updateStatus [("u1", [sampleDelivered])] "o1" .PENDING none).2 = true ∧
    Store.get (updateStatus [("u1", [sampleDelivered])] "o1" .PENDING none).1 "u1"
      = some [{ sampleDelivered with status := OrderStatus.PENDING }] ∧
    ({ sampleDelivered with status := OrderStatus.PENDING }).status
      ≠ OrderStatus.DELIVERED := by
  refine ⟨rfl, rfl, rfl, by decide⟩

/-- C1 (amended): `updateStatus` does not enforce terminal states. For an
order in a terminal state (DELIVERED or CANCELLED) that is the first order
with the target id in its bucket, a subsequent `updateStatus` call
overwrites its status field with the requested status — the call is neither
rejected nor a no-op. -/
theorem c1_amended (st : Store (List Order)) (orderId : String)
    (s : OrderStatus) (c : Option String) (k : String)
    (pre post : List Order) (o : Order)
    (hget : Store.get st k = some (pre ++ o :: post))
    (hpre : ∀ x ∈ pre, (x.id == orderId) = false)
    (ho : o.id = orderId)
    (hterm : o.status = OrderStatus.DELIVERED ∨ o.status = OrderStatus.CANCELLED) :
    Store.get (updateStatus st orderId s c).1 k
      = some (pre ++ applyStatusUpdate s c o :: post) ∧
    (applyStatusUpdate s c o).status = s := by
  have h1 : Store.get (updateStatus st orderId s c).1 k
      = (Store.get st k).map
          (updateFirst (fun x => x.id == orderId) (applyStatusUpdate s c)) := by
    simpa [updateStatus] using
      Store.get_map (updateFirst (fun x => x.id == orderId) (applyStatusUpdate s c)) st k
  rw [h1, hget]
  rw [Option.map_some']
  rw [updateFirst_append _ _ pre post o hpre (by simp [ho])]
  exact ⟨rfl, rfl⟩

/-- C1 witness: the amended theorem at a concrete input. -/
theorem c1_witness :
    Store.get (updateStatus [("u1", [sampleDelivered])] "o1" .ACCEPTED none).1 "u1"
      = some ([] ++ applyStatusUpdate .ACCEPTED none sampleDelivered :: []) ∧
    (applyStatusUpdate .ACCEPTED none sampleDelivered).status = .ACCEPTED :=
  c1_amended [("u1", [sampleDelivered])] "o1" .ACCEPTED none "u1" [] []
    sampleDelivered rfl (by simp) rfl (Or.inl rfl)

/-! ## Claim C2 -/

/-- C2 counterexample: an order whose declared total is inconsistent with
its item sum is accepted by `createOrders` and stored, contrary to the
claimed ValidationError. -/
theorem c2_counterexample :
    specTotalConsistent badTotalOrder = false ∧
    (createOrders [] "u1" (some [badTotalOrder])).2 = true ∧
    Store.get (createOrders [] "u1" (some [badTotalOrder])).1 "u1"
      = some [badTotalOrder] := by
  refine ⟨by decide, rfl, rfl⟩

/-- C2 (amended): `createOrders` validates only that the batch is a proper
sequence: a non-array body is rejected with the store unchanged, while any
array batch is appended whole to the user's bucket with no consistency
check between each order's declared totalAmount and its item sum. -/
theorem c2_amended (st : Store (List Order)) (userId : String) :
    createOrders st userId none = (st, false) ∧
    ∀ batch : List Order,
      (createOrders st userId (some batch)).2 = true ∧
      Store.get (createOrders st userId (some batch)).1 userId
        = some ((Store.get st userId).getD [] ++ batch) :=
  ⟨rfl, fun _ => ⟨rfl, Store.get_set_self st userId _⟩⟩

/-! ## Claim C3 -/

/-- C3: evaluating the code at the claimed scenario. Starting from an empty
message store, one RESTAURANT_CHAT message is posted to order o1; listing
with the COURIER_CHAT filter returns the empty sequence as claimed, but that
read writes the chat-type-filtered list back over o1's stored messages
(server.ts lines 557-560), deleting the fresh RESTAURANT_CHAT message; the
subsequent RESTAURANT_CHAT listing therefore returns the empty sequence
instead of the one message the claim (and the spec scenario) requires. -/
theorem c3_code_bug_eval :
    (postMessage [] "o1" "hi" "s1" true .RESTAURANT_CHAT "m1" 0).2.isSome = true ∧
    (listMessages (postMessage [] "o1" "hi" "s1" true .RESTAURANT_CHAT "m1" 0).1
      "o1" (some .COURIER_CHAT) 0).2 = [] ∧
    (listMessages (postMessage [] "o1" "hi" "s1" true .RESTAURANT_CHAT "m1" 0).1
      "o1" (some .COURIER_CHAT) 0).1 = [("o1", [])] ∧
    (listMessages
      (listMessages (postMessage [] "o1" "hi" "s1" true .RESTAURANT_CHAT "m1" 0).1
        "o1" (some .COURIER_CHAT) 0).1
      "o1" (some .RESTAURANT_CHAT) 0).2 = [] := by
  refine ⟨rfl, by decide, by decide, by decide⟩

/-! ## Claim C4 -/

/-- C4: when the request's courier id is absent or falsy, `updateStatus`
preserves every order's previously assigned courierId: the order at any
position of any bucket keeps its courierId value. -/
theorem c4_courier_preserved (st : Store (List Order)) (orderId : String)
    (s : OrderStatus) (c : Option String) (hc : truthyStr c = false)
    (k : String) (b : List Order) (hget : Store.get st k = some b)
    (i : ℕ) (o : Order) (ho : b.get? i = some o) (cid : String)
    (hset : o.courierId = some cid) :
    ∃ b', Store.get (updateStatus st orderId s c).1 k = some b' ∧
      ∃ o', b'.get? i = some o' ∧ o'.courierId = some cid := by
  have h1 : Store.get (updateStatus st orderId s c).1 k
      = (Store.get st k).map
          (updateFirst (fun x => x.id == orderId) (applyStatusUpdate s c)) := by
    simpa [updateStatus] using
      Store.get_map (updateFirst (fun x => x.id == orderId) (applyStatusUpdate s c)) st k
  rw [h1, hget, Option.map_some']
  refine ⟨_, rfl, ?_⟩
  have hpres : ∀ a : Order, (applyStatusUpdate s c a).courierId = a.courierId := by
    intro a
    simp [applyStatusUpdate, hc]
  have := updateFirst_get?_pres (fun x => x.id == orderId)
    (applyStatusUpdate s c) Order.courierId hpres b i
  rw [ho] at this
  cases h' : (updateFirst (fun x => x.id == orderId) (applyStatusUpdate s c) b).get? i with
  | none => rw [h'] at this; simp at this
  | some o' =>
      rw [h'] at this
      simp only [Option.map_some'] at this
      have hoc : o'.courierId = o.courierId := Option.some.inj this
      exact ⟨o', rfl, by rw [hoc, hset]⟩

/-- C4 witness: a courier assigned as c9 survives a status update whose
request omits the courier id. -/
theorem c4_witness :
    ∃ b', Store.get (updateStatus
        [("u1", [{ sampleDelivered with status := .ON_WAY, courierId := some "c9" }])]
        "o1" .DELIVERED none).1 "u1" = some b' ∧
      ∃ o', b'.get? 0 = some o' ∧ o'.courierId = some "c9" :=
  c4_courier_preserved
    [("u1", [{ sampleDelivered with status := .ON_WAY, courierId := some "c9" }])]
    "o1" .DELIVERED none rfl "u1"
    [{ sampleDelivered with status := .ON_WAY, courierId := some "c9" }]
    rfl 0 { sampleDelivered with status := .ON_WAY, courierId := some "c9" }
    rfl "c9" rfl

/-! ## Claim C9 -/

/-- C9: `updateStatus` is frame-preserving on every other order. Every order
whose id differs from the target id sits unchanged at its original position
in its original bucket after the call, whether or not the target id was
found. -/
theorem c9_frame (st : Store (List Order)) (orderId : String)
    (s : OrderStatus) (c : Option String) (k : String) (b : List Order)
    (hget : Store.get st k = some b) :
    ∃ b', Store.get (updateStatus st orderId s c).1 k = some b' ∧
      b'.length = b.length ∧
      ∀ (i : ℕ) (o : Order), b.get? i = some o → o.id ≠ orderId →
        b'.get? i = some o := by
  have h1 : Store.get (updateStatus st orderId s c).1 k
      = (Store.get st k).map
          (updateFirst (fun x => x.id == orderId) (applyStatusUpdate s c)) := by
    simpa [updateStatus] using
      Store.get_map (updateFirst (fun x => x.id == orderId) (applyStatusUpdate s c)) st k
  rw [h1, hget, Option.map_some']
  refine ⟨_, rfl, updateFirst_length _ _ b, ?_⟩
  intro i o ho hne
  exact updateFirst_get?_of_not _ _ b i o ho (by simpa using hne)

/-- C9 witness: an order with a different id is untouched by the update. -/
theorem c9_witness :
    ∃ b', Store.get (updateStatus [("u1", [sampleDelivered, badTotalOrder])]
        "o2" .ACCEPTED none).1 "u1" = some b' ∧
      b'.length = [sampleDelivered, badTotalOrder].length ∧
      ∀ (i : ℕ) (o : Order),
        [sampleDelivered, badTotalOrder].get? i = some o → o.id ≠ "o2" →
        b'.get? i = some o :=
  c9_frame [("u1", [sampleDelivered, badTotalOrder])] "o2" .ACCEPTED none
    "u1" [sampleDelivered, badTotalOrder] rfl

/-! ## Claim C5 -/

theorem Store.get_eq_none_of_not_mem {α : Type} (st : Store α) (k : String)
    (h : k ∉ st.map Prod.fst) : Store.get st k = none := by
  induction st with
  | nil => rfl
  | cons hd tl ih =>
      obtain ⟨k', v⟩ := hd
      simp only [List.map_cons, List.mem_cons] at h
      push_neg at h
      have hk : k' ≠ k := fun hk => h.1 hk.symm
      simp [Store.get, hk, ih h.2]

theorem get_sweepOrders_of_none (st : Store (List Order)) (now : Int)
    (k : String) (h : Store.get st k = none) :
    Store.get (sweepOrders st now) k = none := by
  induction st with
  | nil => rfl
  | cons hd tl ih =>
      obtain ⟨k', b⟩ := hd
      have hk : ¬k' = k := by
        intro hk
        simp [Store.get, hk] at h
      have htl : Store.get tl k = none := by
        simpa [Store.get, hk] using h
      by_cases he : (b.filter (keepOrder now)).isEmpty
      · simpa [sweepOrders, he] using ih htl
      · simpa [sweepOrders, he, Store.get, hk] using ih htl

/-- C5: the 15-minute order sweep retains an order exactly when its status
is not terminal (neither DELIVERED nor CANCELLED) or its age is at most 24
hours, and removes an owner bucket entirely when no order in it is
retained. -/
theorem c5_sweep (st : Store (List Order)) (now : Int)
    (hnd : (st.map Prod.fst).Nodup) (k : String) (b : List Order)
    (hget : Store.get st k = some b) :
    (Store.get (sweepOrders st now) k
      = if (b.filter (keepOrder now)).isEmpty then none
        else some (b.filter (keepOrder now))) ∧
    ∀ o ∈ b, (keepOrder now o = true ↔
      ((o.status ≠ OrderStatus.DELIVERED ∧ o.status ≠ OrderStatus.CANCELLED)
        ∨ now - o.createdAt ≤ TWENTY_FOUR_HOURS)) := by
  constructor
  · induction st with
    | nil => simp [Store.get] at hget
    | cons hd tl ih =>
        obtain ⟨k', b'⟩ := hd
        simp only [List.map_cons, List.nodup_cons] at hnd
        by_cases hk : k' = k
        · have hb : b' = b := by simpa [Store.get, hk] using hget
          subst hb
          by_cases he : (b'.filter (keepOrder now)).isEmpty
          · have hnone : Store.get tl k = none :=
              Store.get_eq_none_of_not_mem tl k (hk ▸ hnd.1)
            simpa [sweepOrders, he] using get_sweepOrders_of_none tl now k hnone
          · simp [sweepOrders, he, Store.get, hk]
        · have htl : Store.get tl k = some b := by
            simpa [Store.get, hk] using hget
          by_cases he : (b'.filter (keepOrder now)).isEmpty
          · simpa [sweepOrders, he] using ih hnd.2 htl
          · simpa [sweepOrders, he, Store.get, hk] using ih hnd.2 htl
  · intro o _
    simp only [keepOrder, Bool.or_eq_true, Bool.and_eq_true,
      Bool.not_eq_true', beq_eq_false_iff_ne, decide_eq_true_eq]

/-- C5 witness: a bucket holding only a stale DELIVERED order is removed
outright; the retention test agrees with the claimed condition there. -/
theorem c5_witness :
    (Store.get (sweepOrders [("u1", [sampleDelivered])] 86400001) "u1"
      = if ([sampleDelivered].filter (keepOrder 86400001)).isEmpty then none
        else some ([sampleDelivered].filter (keepOrder 86400001))) ∧
    ∀ o ∈ [sampleDelivered], (keepOrder 86400001 o = true ↔
      ((o.status ≠ OrderStatus.DELIVERED ∧ o.status ≠ OrderStatus.CANCELLED)
        ∨ 86400001 - o.createdAt ≤ TWENTY_FOUR_HOURS)) :=
  c5_sweep [("u1", [sampleDelivered])] 86400001 (by simp) "u1"
    [sampleDelivered] rfl

/-! ## Claims C6 and C7 -/

/-- A sample menu item with `updatedAt = 0`. -/
def sampleItem : MenuItem :=
  { id := "m1", name := "Margherita", description := "d", price := 999
    category := "pizza", imageUri := none, isAvailable := true
    updatedAt := 0 }

/-- C6 counterexample: `setMenu` stamps every submitted item's `updatedAt`
with the server time (server.ts lines 312-315), so the immediate `getMenu`
round trip returns items whose `updatedAt` differs from the submitted one —
not the same field values. -/
theorem c6_counterexample :
    (setMenu [] "R" (some [sampleItem]) 5).2 = true ∧
    (getMenu (setMenu [] "R" (some [sampleItem]) 5).1 "R" 5).2
      = some [{ sampleItem with updatedAt := 5 }] ∧
    (getMenu (setMenu [] "R" (some [sampleItem]) 5).1 "R" 5).2
      ≠ some [sampleItem] := by
  refine ⟨rfl, by decide, by decide⟩

/-- C6 (amended): `setMenu(R, items)` followed by `getMenu(R)` within the
24-hour TTL returns a sequence of the same count whose elements agree with
`items` on every field except `updatedAt`, which is overwritten with the
set time; R's previous entry is fully replaced and its TTL clock reset to
the set time. -/
theorem c6_amended (menus : Store MenuEntry) (rid : String)
    (items : List MenuItem) (tset tget : Int)
    (h : tget - tset ≤ TWENTY_FOUR_HOURS) :
    (setMenu menus rid (some items) tset).2 = true ∧
    Store.get (setMenu menus rid (some items) tset).1 rid
      = some { items := items.map (fun it => { it with updatedAt := tset })
               timestamp := tset } ∧
    (getMenu (setMenu menus rid (some items) tset).1 rid tget).2
      = some (items.map (fun it => { it with updatedAt := tset })) := by
  have hset : Store.get (setMenu menus rid (some items) tset).1 rid
      = some { items := items.map (fun it => { it with updatedAt := tset })
               timestamp := tset } := by
    simpa [setMenu] using Store.get_set_self menus rid _
  refine ⟨rfl, hset, ?_⟩
  have h2 : ¬(tget - tset > TWENTY_FOUR_HOURS) := not_lt.mpr h
  simp [getMenu, hset, h2]

/-- C6 witness: amended round trip at a concrete input. -/
theorem c6_amended_witness :
    (setMenu [] "R" (some [sampleItem]) 5).2 = true ∧
    Store.get (setMenu [] "R" (some [sampleItem]) 5).1 "R"
      = some { items := [sampleItem].map (fun it => { it with updatedAt := 5 })
               timestamp := 5 } ∧
    (getMenu (setMenu [] "R" (some [sampleItem]) 5).1 "R" 6).2
      = some ([sampleItem].map (fun it => { it with updatedAt := 5 })) :=
  c6_amended [] "R" [sampleItem] 5 6 (by decide)

/-- C7: `getMenu` answers the stored items exactly when the entry is present
and aged at most 24 hours; an absent entry answers NotFound; a present but
expired entry answers NotFound and is removed from the store by the read. -/
theorem c7_getMenu (menus : Store MenuEntry) (rid : String) (now : Int) :
    (∀ e, Store.get menus rid = some e →
      now - e.timestamp ≤ TWENTY_FOUR_HOURS →
      getMenu menus rid now = (menus, some e.items)) ∧
    (Store.get menus rid = none → (getMenu menus rid now).2 = none) ∧
    (∀ e, Store.get menus rid = some e →
      now - e.timestamp > TWENTY_FOUR_HOURS →
      (getMenu menus rid now).2 = none ∧
      Store.get (getMenu menus rid now).1 rid = none) := by
  refine ⟨?_, ?_, ?_⟩
  · intro e he hfresh
    have h2 : ¬(now - e.timestamp > TWENTY_FOUR_HOURS) := not_lt.mpr hfresh
    simp [getMenu, he, h2]
  · intro he
    simp [getMenu, he]
  · intro e he hstale
    refine ⟨by simp [getMenu, he, hstale], ?_⟩
    have h1 : (getMenu menus rid now).1 = Store.erase menus rid := by
      simp [getMenu, he, hstale]
    rw [h1]
    exact Store.get_erase_self menus rid

/-- C7 witness: a fresh entry is served; an expired one answers NotFound
and is evicted by the read. -/
theorem c7_witness :
    getMenu [("R", { items := [sampleItem], timestamp := 0 })] "R" 100
      = ([("R", { items := [sampleItem], timestamp := 0 })], some [sampleItem]) ∧
    (getMenu [("R", { items := [sampleItem], timestamp := 0 })] "R" 99999999999).2
      = none ∧
    Store.get
      (getMenu [("R", { items := [sampleItem], timestamp := 0 })] "R" 99999999999).1
      "R" = none :=
  ⟨(c7_getMenu [("R", { items := [sampleItem], timestamp := 0 })] "R" 100).1
      { items := [sampleItem], timestamp := 0 } rfl (by decide),
   ((c7_getMenu [("R", { items := [sampleItem], timestamp := 0 })] "R" 99999999999).2.2
      { items := [sampleItem], timestamp := 0 } rfl (by decide)).1,
   ((c7_getMenu [("R", { items := [sampleItem], timestamp := 0 })] "R" 99999999999).2.2
      { items := [sampleItem], timestamp := 0 } rfl (by decide)).2⟩

/-! ## Claim C8 -/

/-- C8: a message inserted at time T is visible in a listing at T+2h59m and
invisible at T+3h01m: the cutoff is age ≤ exactly 3 hours, by exact integer
millisecond comparison. -/
theorem c8_message_ttl (st : Store (List Message))
    (orderId content senderId : String) (isFromUser : Bool) (ct : ChatType)
    (msgId : String) (T : Int) (hc : ¬content = "") (hs : ¬senderId = "") :
    ∃ m : Message,
      (postMessage st orderId content senderId isFromUser ct msgId T).2 = some m ∧
      m.timestamp = T ∧
      m ∈ (listMessages (postMessage st orderId content senderId isFromUser ct msgId T).1
            orderId none (T + 10740000)).2 ∧
      m ∉ (listMessages (postMessage st orderId content senderId isFromUser ct msgId T).1
            orderId none (T + 10860000)).2 := by
  have hcond : ¬(content = "" ∨ senderId = "") := by tauto
  refine ⟨{ id := msgId, orderId := orderId, content := content
            senderId := senderId, isFromUser := isFromUser
            timestamp := T, chatType := ct, delivered := false },
    by simp [postMessage, hcond], rfl, ?_, ?_⟩
  · have hpost1 : (postMessage st orderId content senderId isFromUser ct msgId T).1
        = Store.set st orderId ((Store.get st orderId).getD []
            ++ [{ id := msgId, orderId := orderId, content := content
                  senderId := senderId, isFromUser := isFromUser
                  timestamp := T, chatType := ct, delivered := false }]) := by
      simp [postMessage, hcond]
    rw [hpost1]
    have hget := Store.get_set_self st orderId
      ((Store.get st orderId).getD []
        ++ [{ id := msgId, orderId := orderId, content := content
              senderId := senderId, isFromUser := isFromUser
              timestamp := T, chatType := ct, delivered := false }])
    simp only [listMessages, hget, Option.getD_some]
    refine List.mem_filter.mpr ⟨by simp, ?_⟩
    have : T + 10740000 - T ≤ THREE_HOURS := by unfold THREE_HOURS; omega
    simpa using this
  · intro hmem
    have hpost1 : (postMessage st orderId content senderId isFromUser ct msgId T).1
        = Store.set st orderId ((Store.get st orderId).getD []
            ++ [{ id := msgId, orderId := orderId, content := content
                  senderId := senderId, isFromUser := isFromUser
                  timestamp := T, chatType := ct, delivered := false }]) := by
      simp [postMessage, hcond]
    rw [hpost1] at hmem
    have hget := Store.get_set_self st orderId
      ((Store.get st orderId).getD []
        ++ [{ id := msgId, orderId := orderId, content := content
              senderId := senderId, isFromUser := isFromUser
              timestamp := T, chatType := ct, delivered := false }])
    simp only [listMessages, hget, Option.getD_some] at hmem
    have := (List.mem_filter.mp hmem).2
    simp only [decide_eq_true_eq] at this
    unfold THREE_HOURS at this
    omega

/-- C8 witness: the boundary theorem at a concrete input T = 0. -/
theorem c8_witness :
    ∃ m : Message,
      (postMessage [] "o1" "hi" "s1" true .RESTAURANT_CHAT "m1" 0).2 = some m ∧
      m.timestamp = 0 ∧
      m ∈ (listMessages (postMessage [] "o1" "hi" "s1" true .RESTAURANT_CHAT "m1" 0).1
            "o1" none (0 + 10740000)).2 ∧
      m ∉ (listMessages (postMessage [] "o1" "hi" "s1" true .RESTAURANT_CHAT "m1" 0).1
            "o1" none (0 + 10860000)).2 :=
  c8_message_ttl [] "o1" "hi" "s1" true .RESTAURANT_CHAT "m1" 0
    (by decide) (by decide)

/-! ## Claim C10 -/

theorem find?_updateFirst_const {α : Type} (p : α → Bool) (b : α)
    (l : List α) (a : α) (hfind : l.find? p = some a) (hb : p b = true) :
    (updateFirst p (fun _ => b) l).find? p = some b := by
  induction l with
  | nil => simp at hfind
  | cons x rest ih =>
      by_cases hp : p x = true
      · simp [updateFirst, hp, List.find?_cons_of_pos, hb]
      · have hrest : rest.find? p = some a := by
          simpa [List.find?_cons_of_neg, hp] using hfind
        simp [updateFirst, hp, List.find?_cons_of_neg, ih hrest]

/-- C10: upserting an existing restaurant with valid id and name but no
image payload keeps the previously stored coverImage, while name, isActive
(the string test `isActive === 'true'`) and updatedAt are replaced. -/
theorem c10_upsert (restaurants : List Restaurant)
    (id name isActiveStr : String) (now : Int) (r : Restaurant)
    (hid : ¬id = "") (hname : ¬name = "")
    (hfind : restaurants.find? (fun x => x.id == id) = some r) :
    (upsertRestaurant restaurants id name isActiveStr none now).2 = true ∧
    (upsertRestaurant restaurants id name isActiveStr none now).1.find?
        (fun x => x.id == id)
      = some { id := id, name := name, coverImage := r.coverImage
               isActive := isActiveStr == "true", updatedAt := now } := by
  have hcond : ¬(id = "" ∨ name = "") := by tauto
  constructor
  · simp [upsertRestaurant, hcond, hfind]
  · have h1 : (upsertRestaurant restaurants id name isActiveStr none now).1
        = updateFirst (fun x => x.id == id)
            (fun _ => { id := id, name := name, coverImage := r.coverImage
                        isActive := isActiveStr == "true", updatedAt := now })
            restaurants := by
      simp [upsertRestaurant, hcond, hfind]
    rw [h1]
    exact find?_updateFirst_const (fun x => x.id == id)
      { id := id, name := name, coverImage := r.coverImage
        isActive := isActiveStr == "true", updatedAt := now }
      restaurants r hfind (by simp)

/-- C10 witness: a concrete restaurant keeps its cover image. -/
theorem c10_witness :
    (upsertRestaurant
      [{ id := "r1", name := "Old", coverImage := some "/uploads/x.png"
         isActive := false, updatedAt := 0 }] "r1" "New" "true" none 7).2 = true ∧
    (upsertRestaurant
      [{ id := "r1", name := "Old", coverImage := some "/uploads/x.png"
         isActive := false, updatedAt := 0 }] "r1" "New" "true" none 7).1.find?
        (fun x => x.id == "r1")
      = some { id := "r1", name := "New", coverImage := some "/uploads/x.png"
               isActive := ("true" == "true"), updatedAt := 7 } :=
  c10_upsert
    [{ id := "r1", name := "Old", coverImage := some "/uploads/x.png"
       isActive := false, updatedAt := 0 }] "r1" "New" "true" 7
    { id := "r1", name := "Old", coverImage := some "/uploads/x.png"
      isActive := false, updatedAt := 0 }
    (by decide) (by decide) (by decide)

end Delivy
